import Mathlib

/-! Verification of libresolvepath (libpathrs-style path resolution library).

This file gives a shallow embedding, in Lean 4, of the parts of the library
needed to settle the frozen claims:

* `src/capi/error.rs` — the FFI error-id table (`store_error`,
  `pathrs_errorinfo`) and the `CError` conversion (`From<&Error> for CError`).
* `src/resolvers/mod.rs` — the resolver dispatcher: `ResolverBackend`,
  the default-backend selection, `PartialLookup` and its conversions
  (`TryInto<Handle>`, `TryInto<(Handle, Option<PathBuf>)>`,
  `From<PartialLookup<Rc<OwnedFd>>> for PartialLookup<Handle>`).
* the emulated `O_PATH` walker (the file `src/resolvers/opath.rs` is not part
  of the provided sources, so it is modelled from the specification, §4.4).

Machine integers are modelled as `Int`/`Nat` with explicit wrapping where the
Rust code can overflow; fallible operations return `Option`/`Except`; the
`expect`/panic paths of the Rust code are modelled as `Option.none`.
-/

namespace LibResolvePath

/-! Error model: (from `src/error.rs` as described by the spec §7 and used
by `src/capi/error.rs` and `src/resolvers/mod.rs`) -/

/-- Error kinds of the library (spec §7; `ErrorKind` in the code).
`osError` carries the optional saved errno as a signed integer. -/
inductive ErrorKind where
  | osError (errno : Option Int)
  | invalidArgument
  | safetyViolation
  | symlinkLoop
  | backendUnsupported
  | notImplemented
  deriving DecidableEq, Repr

/-- A library error: its kind, its own display message, and (for `wrap`) the
`source()` error it was caused by.  The Rust `Error::source` chain is modelled
as this recursive structure; `leaf` is an error whose `source()` is `None`. -/
inductive Error where
  | leaf (kind : ErrorKind) (msg : String)
  | wrap (kind : ErrorKind) (msg : String) (src : Error)
  deriving DecidableEq, Repr

/-- Accessor `err.kind()`. -/
def Error.kind : Error → ErrorKind
  | .leaf k _ => k
  | .wrap k _ _ => k

/-- Method `err.to_string()`: the display message of the error itself (its causes are not
included; `Display` prints only the error itself). -/
def Error.display : Error → String
  | .leaf _ m => m
  | .wrap _ m _ => m

/-- Accessor `err.source()`. -/
def Error.source : Error → Option Error
  | .leaf _ _ => none
  | .wrap _ _ s => some s

/-- The messages of the causal chain strictly below the error itself,
outermost cause first. -/
def Error.sourceMsgs : Error → List String
  | .leaf _ _ => []
  | .wrap _ _ s => s.display :: s.sourceMsgs

/-- The `while let Some(next) = err.source()` loop of
`From<&Error> for CError` (`src/capi/error.rs` lines 89–96): starting from
accumulator `acc`, append `": " ++ next.to_string()` for every error in the
source chain of `e`. -/
def descLoop : Error → String → String
  | .leaf _ _, acc => acc
  | .wrap _ _ next, acc => descLoop next (acc ++ ": " ++ next.display)

/-- The description string built by `From<&Error> for CError`: start from
`err.to_string()` and run the source-chain loop. -/
def cErrorDescription (e : Error) : String :=
  descLoop e e.display

/-- The value `i32::MIN`. -/
def INT32_MIN : Int := -(2 ^ 31)

/-- Rust `i32::abs` with wrapping on overflow in two-complement style (the release
behaviour with overflow checks off): `i32::MIN.abs()` wraps back to
`i32::MIN`; every other value maps to its absolute value. -/
def i32WrappingAbs (x : Int) : Int :=
  if x = INT32_MIN then INT32_MIN else |x|

/-- Rust `<u64 as TryFrom<i32>>::try_from`: succeeds exactly on non-negative
values (every non-negative `i32` fits in a `u64`). -/
def u64TryFromI32 (x : Int) : Option Nat :=
  if 0 ≤ x then some x.toNat else none

/-- The `errno` computation of `From<&Error> for CError`
(`src/capi/error.rs` lines 104–110): `err.abs()` for a syscall-sourced
`OsError(Some(errno))`, `0` otherwise, then `try_into().unwrap_or(0)` into
the `u64` field. -/
def cErrorSavedErrno (e : Error) : Nat :=
  let errno : Int :=
    match e.kind with
    | .osError (some er) => i32WrappingAbs er
    | _ => 0
  (u64TryFromI32 errno).getD 0

/-- The FFI `CError` struct (`saved_errno: u64`, `description: cstring`). -/
structure CError where
  saved_errno : Nat
  description : String
  deriving DecidableEq, Repr

/-- Conversion `From<&Error> for CError` (`src/capi/error.rs` lines 81–114). -/
def cErrorFrom (e : Error) : CError :=
  { saved_errno := cErrorSavedErrno e
    description := cErrorDescription e }

/-! The FFI error-id table (`src/capi/error.rs`). -/

/-- The error map `ERROR_MAP : HashMap<CReturn, Error>` is modelled as an
association list keyed by the `CReturn` (= `c_int`, an `i32`) error id.  The
`HashMap` invariant (one binding per key) is `ErrMap.Wf`. -/
abbrev ErrMap : Type := List (Int × Error)

/-- Lookup in `HashMap::get` style. -/
def ErrMap.find (m : ErrMap) (k : Int) : Option Error :=
  List.lookup k m

/-- The keys currently bound in the map. -/
def ErrMap.keys (m : ErrMap) : List Int :=
  m.map Prod.fst

/-- The `HashMap` representation invariant: one binding per key. -/
def ErrMap.Wf (m : ErrMap) : Prop :=
  m.keys.Nodup

/-- Removal `HashMap::remove(&k)`: drop the binding of `k` (if any). -/
def ErrMap.remove (m : ErrMap) (k : Int) : ErrMap :=
  m.filter (fun p => p.1 ≠ k)

/-- Model of `store_error` (`src/capi/error.rs` lines 40–58).  The `rand::thread_rng`
values produced by `g.gen_range(CReturn::MIN..=-4096)` are modelled as the
list `rands` of candidate ids (each in `[i32::MIN, -4096]`, which is the
`gen_range` contract); the `loop` retries occupied slots, so its iterations
consume the list.  `none` models running out of the supplied randomness
(the real loop would keep drawing).  On success it returns the chosen id and
the updated map, having inserted only into a vacant slot. -/
def storeError (rands : List Int) (m : ErrMap) (e : Error) :
    Option (Int × ErrMap) :=
  match rands with
  | [] => none
  | idx :: rest =>
    match m.find idx with
    | some _ => storeError rest m e
    | none => some (idx, (idx, e) :: m)

/-- Model of `pathrs_errorinfo` (`src/capi/error.rs` lines 166–174):
`err_map.remove(&err_id).as_ref().map(CError::from)` — look up and remove the
id, returning the converted error (if the id was bound) together with the
map after removal. -/
def pathrsErrorinfo (m : ErrMap) (errId : Int) : Option CError × ErrMap :=
  ((m.find errId).map cErrorFrom, m.remove errId)

/-- One call into the error-table FFI surface: either some operation stored
an error (with the given randomness stream), or a caller queried an id. -/
inductive ErrOp where
  | store (rands : List Int) (e : Error)
  | query (errId : Int)

/-- Apply one call to the table.  A `store` whose randomness ran out leaves
the table unchanged (the real loop would simply still be drawing). -/
def ErrMap.step (m : ErrMap) : ErrOp → ErrMap
  | .store rands e =>
    match storeError rands m e with
    | some (_, m') => m'
    | none => m
  | .query errId => (pathrsErrorinfo m errId).2

/-- The table state after a sequence of calls, starting from the empty
initial `ERROR_MAP`. -/
def ErrMap.run (ops : List ErrOp) : ErrMap :=
  ops.foldl ErrMap.step ([] : ErrMap)

/-! Resolver dispatcher (`src/resolvers/mod.rs`). -/

/-- Constant `MAX_SYMLINK_TRAVERSALS` (`src/resolvers/mod.rs` line 45). -/
def MAX_SYMLINK_TRAVERSALS : Nat := 128

/-- Enum `ResolverBackend` (`src/resolvers/mod.rs` lines 57–65). -/
inductive ResolverBackend where
  | kernelOpenat2
  | emulatedOpath
  deriving DecidableEq, Repr

/-- Static `DEFAULT_RESOLVER_TYPE` and `Default for ResolverBackend`
(`src/resolvers/mod.rs` lines 67–79): the lazily-computed default backend as
a function of the cached `syscalls::OPENAT2_IS_SUPPORTED` probe result. -/
def defaultResolverType (openat2IsSupported : Bool) : ResolverBackend :=
  if openat2IsSupported then .kernelOpenat2 else .emulatedOpath

/-- Flags `ResolverFlags` (from `src/flags.rs`, not under the provided sources):
the only flag the resolution algorithm consults is `NO_SYMLINKS`
(spec §3, "a bitset with at least `NO_SYMLINKS`"). -/
structure ResolverFlags where
  noSymlinks : Bool
  deriving DecidableEq, Repr

/-- Struct `Resolver` (`src/resolvers/mod.rs` lines 99–104): a backend (the field
an explicit override for tests sets) paired with resolver flags. -/
structure Resolver where
  backend : ResolverBackend
  flags : ResolverFlags
  deriving DecidableEq, Repr

/-- File descriptors are abstract identifiers (`OwnedFd`). -/
abbrev Fd : Type := Nat

/-- Struct `Handle` (`src/handle.rs` lines 50–52): an owned descriptor. -/
structure Handle where
  inner : Fd

/-- Constructor `Handle::from_fd` — wrap an owned fd (as `Handle::from_fd_unchecked`,
`src/handle.rs` lines 72–74, which the crate-internal `from_fd` delegates
to: it only moves the fd into the struct). -/
def Handle.fromFd (fd : Fd) : Handle :=
  { inner := fd }

/-- A path component, as produced by `std::path::Path::components()`:
`CurDir` (`.`), `ParentDir` (`..`) or a normal name.  Entry names are
opaque to the algorithm and modelled as numbers. -/
inductive Component where
  | curDir
  | parentDir
  | normal (name : Nat)
  deriving DecidableEq, Repr

/-- Type `PathBuf`: a normalized sequence of components (spec §3: separators
collapsed, so components are all that remains). -/
abbrev PathBuf : Type := List Component

/-- Type `PartialLookup<H>` (`src/resolvers/mod.rs` lines 108–115). -/
inductive PartialLookup (H : Type) where
  | Complete (handle : H)
  | Partial (handle : H) (remaining : PathBuf) (lastError : Error)

/-- Conversion `TryInto<Handle> for PartialLookup<Handle>`
(`src/resolvers/mod.rs` lines 126–135): `Complete` yields the handle,
`Partial` yields its `last_error`. -/
def PartialLookup.tryIntoHandle : PartialLookup Handle → Except Error Handle
  | .Complete handle => .ok handle
  | .Partial _ _ lastError => .error lastError

/-- Errno `libc::ENOENT`. -/
def ENOENT : Int := 2
/-- Errno `libc::EIO`. -/
def EIO : Int := 5
/-- Errno `libc::EACCES`. -/
def EACCES : Int := 13
/-- Errno `libc::ENOTDIR`. -/
def ENOTDIR : Int := 20
/-- Errno `libc::ELOOP`. -/
def ELOOP : Int := 40

/-- Conversion `TryInto<(Handle, Option<PathBuf>)> for PartialLookup<Handle>`
(`src/resolvers/mod.rs` lines 145–161): `Complete` maps to `(handle, None)`;
`Partial` maps to `(handle, Some(remaining))` exactly when the stored error
kind matches `ErrorKind::OsError(Some(libc::ENOENT))`, and to
`Err(last_error)` for every other error kind. -/
def PartialLookup.tryIntoHandleRemaining :
    PartialLookup Handle → Except Error (Handle × Option PathBuf)
  | .Complete handle => .ok (handle, none)
  | .Partial handle remaining lastError =>
    if lastError.kind = .osError (some ENOENT) then
      .ok (handle, some remaining)
    else
      .error lastError

/-- Type `Rc<T>`: a reference-counted pointer, carrying its strong count. -/
structure Rc (α : Type) where
  value : α
  strong : Nat

/-- Operation `Rc::try_unwrap`: succeeds (returning the value) exactly when this is
the only strong reference. -/
def Rc.tryUnwrap (r : Rc α) : Option α :=
  if r.strong = 1 then some r.value else none

/-- Conversion `From<PartialLookup<Rc<OwnedFd>>> for PartialLookup<Handle>`
(`src/resolvers/mod.rs` lines 171–200): split the lookup into the shared fd
and the optional `(remaining, last_error)` payload, unwrap the `Rc` (the
`.expect(..)` panic on a still-shared fd is modelled as `none`), wrap the fd
as a `Handle`, and rebuild the same shape. -/
def partialLookupFromRc (result : PartialLookup (Rc Fd)) :
    Option (PartialLookup Handle) :=
  let (rc, part) :=
    match result with
    | .Complete rc => (rc, none)
    | .Partial handle remaining lastError => (handle, some (remaining, lastError))
  match rc.tryUnwrap with
  | none => none
  | some fd =>
    let handle := Handle.fromFd fd
    some <| match part with
      | none => .Complete handle
      | some (remaining, lastError) => .Partial handle remaining lastError

/-! Emulated `O_PATH` walker.

Modelled from the spec: the file `src/resolvers/opath.rs` (the emulated
backend invoked by `Resolver::resolve`/`resolve_partial` for
`ResolverBackend::EmulatedOpath`) is not part of the provided sources, so
the walker below follows spec §4.4 ("Emulated backend — the hard core")
step by step, over an abstract filesystem. -/

/-- A filesystem node: a directory (its entries map names to inodes), a
regular file, or a symlink (absolute flag plus target components,
spec §3 "Path"). -/
inductive Node where
  | dir (entries : Nat → Option Nat)
  | file
  | symlink (isAbsolute : Bool) (target : List Component)

/-- An abstract filesystem: the root inode, the node stored at each inode,
and the parent directory of each inode (what `openat(fd, "..")` yields). -/
structure Fs where
  rootIno : Nat
  node : Nat → Option Node
  parent : Nat → Nat

/-- Errors of the emulated walk: a syscall errno (spec §7 `OsError`), or
the symlink budget ran out (spec §7 `SymlinkLoop`, ELOOP at the boundary). -/
inductive WalkError where
  | osError (errno : Int)
  | symlinkLoop
  deriving DecidableEq, Repr

/-- Modelled from the spec: the component loop of the emulated backend
(spec §4.4 step 3), missing from the provided sources as
`src/resolvers/opath.rs`.  One iteration per component of `remaining`:
`.` is skipped (3b); `..` moves to the parent unless `current` is the root
(3c, the root-clamp); a normal name is opened in `current` — `ENOTDIR` if
`current` is not a directory, `ENOENT` if the entry is missing (3d); a
symlink found at the opened entry is expanded (3e) — skipped for the
trailing component under `no_follow_trailing` (step 4), rejected when
`NO_SYMLINKS` is set, rejected with `SymlinkLoop` when the budget is
exhausted (spec §8: exactly 128 traversals succeed, the 129th fails), and
otherwise re-roots on an absolute target and splices the target in front of
the rest with the budget decremented; any other node becomes the new
`current` (3f).  Empty `remaining` returns `Complete(current)` (step 4). -/
def opathWalk (fs : Fs) (flags : ResolverFlags) (noFollowTrailing : Bool) :
    (symlinksLeft : Nat) → (current : Nat) → (remaining : List Component) →
    Except WalkError Nat
  | _, current, [] => .ok current
  | budget, current, c :: rest =>
    match c with
    | .curDir => opathWalk fs flags noFollowTrailing budget current rest
    | .parentDir =>
      if current = fs.rootIno then
        opathWalk fs flags noFollowTrailing budget current rest
      else
        opathWalk fs flags noFollowTrailing budget (fs.parent current) rest
    | .normal name =>
      match fs.node current with
      | some (.dir entries) =>
        match entries name with
        | none => .error (.osError ENOENT)
        | some next =>
          match fs.node next with
          | some (.symlink isAbsolute target) =>
            if noFollowTrailing ∧ rest = [] then
              opathWalk fs flags noFollowTrailing budget next rest
            else if flags.noSymlinks then
              .error (.osError ELOOP)
            else if budget = 0 then
              .error .symlinkLoop
            else
              opathWalk fs flags noFollowTrailing (budget - 1)
                (if isAbsolute then fs.rootIno else current) (target ++ rest)
          | _ => opathWalk fs flags noFollowTrailing budget next rest
      | _ => .error (.osError ENOTDIR)
  termination_by budget _ remaining => (budget, remaining.length)

/-- Modelled from the spec: `opath::resolve` (spec §4.4 steps 1–2): start
at a clone of the root with the symlink budget initialized to
`MAX_SYMLINK_TRAVERSALS` and walk the components (a leading `/` restarts at
the root, which is where the walk starts anyway). -/
def opathResolve (fs : Fs) (flags : ResolverFlags) (path : List Component)
    (noFollowTrailing : Bool) : Except WalkError Nat :=
  opathWalk fs flags noFollowTrailing MAX_SYMLINK_TRAVERSALS fs.rootIno path

/-- A filesystem holding a chain of `n` symlinks: the root (inode 0) has
entries `1, …, n + 1`; inode `i` for `1 ≤ i ≤ n` is a relative symlink to
entry `i + 1`; inode `n + 1` is a file.  Resolving entry `1` therefore
takes exactly `n` symlink traversals. -/
def chainFs (n : Nat) : Fs where
  rootIno := 0
  node := fun i =>
    if i = 0 then
      some (.dir (fun name => if 1 ≤ name ∧ name ≤ n + 1 then some name else none))
    else if 1 ≤ i ∧ i ≤ n then
      some (.symlink false [.normal (i + 1)])
    else if i = n + 1 then
      some .file
    else
      none
  parent := fun _ => 0

/-! Shared helper lemmas. -/

theorem string_join_cons (a : String) (l : List String) :
    String.join (a :: l) = a ++ String.join l := by
  apply String.ext
  simp [String.join_eq, String.data_append]

theorem descLoop_append (e : Error) (acc : String) :
    descLoop e acc =
      acc ++ String.join (e.sourceMsgs.map (fun m => ": " ++ m)) := by
  induction e generalizing acc with
  | leaf k m =>
    simp [descLoop, Error.sourceMsgs, show String.join ([] : List String) = "" from rfl]
  | wrap k m s ih =>
    rw [descLoop, ih, Error.sourceMsgs]
    simp [string_join_cons, String.append_assoc]

/-! Theorems for the claims. -/

/-- C2. The `resolve` entrypoint never returns a `Partial` result:
converting a `PartialLookup<Handle>` into a plain `Handle` result
(`TryInto<Handle>`, which is what `resolve` applies to any lookup outcome)
sends `Complete(h)` to `Ok(h)` and `Partial{last_error, ..}` to exactly
`Err(last_error)`; only the `PartialLookup` return type of `resolve_partial`
exposes the `Partial` shape. -/
theorem c2_resolve_unwraps (h : Handle) (rem : PathBuf) (e : Error) :
    PartialLookup.tryIntoHandle (.Complete h) = .ok h ∧
    PartialLookup.tryIntoHandle (.Partial h rem e) = .error e :=
  ⟨rfl, rfl⟩

/-- C6. The default resolver backend is a function of the cached
`openat2` support probe: it is `KernelOpenat2` exactly when the probe
reports support and `EmulatedOpath` exactly otherwise; and the `Resolver`
struct carries an explicitly overridable backend field (whatever backend a
test stores is the backend used). -/
theorem c6_default_backend_probe :
    (∀ b : Bool,
      (defaultResolverType b = .kernelOpenat2 ↔ b = true) ∧
      (defaultResolverType b = .emulatedOpath ↔ b = false)) ∧
    (∀ (be : ResolverBackend) (fl : ResolverFlags),
      (Resolver.mk be fl).backend = be) := by
  refine ⟨fun b => ?_, fun _ _ => rfl⟩
  cases b <;> simp [defaultResolverType]

/-- C9. The dispatcher normalization of the shared-fd result of the emulated
shared-fd result (`From<PartialLookup<Rc<OwnedFd>>>`) preserves shape and
payload whenever the fd is uniquely referenced (which the resolver
guarantees on exit): `Complete` maps to `Complete` of the same underlying
fd, and `Partial` maps to `Partial` with the same fd, the same remaining
path and the same `last_error`. -/
theorem c9_rc_normalization (rc : Rc Fd) (rem : PathBuf) (e : Error)
    (h : rc.strong = 1) :
    partialLookupFromRc (.Complete rc) =
      some (.Complete (Handle.fromFd rc.value)) ∧
    partialLookupFromRc (.Partial rc rem e) =
      some (.Partial (Handle.fromFd rc.value) rem e) := by
  constructor <;> simp [partialLookupFromRc, Rc.tryUnwrap, h]

theorem c9_rc_normalization_witness :
    partialLookupFromRc
        (.Partial ⟨37, 1⟩ [Component.normal 3] (.leaf .invalidArgument "x")) =
      some (.Partial (Handle.fromFd 37) [Component.normal 3]
        (.leaf .invalidArgument "x")) :=
  (c9_rc_normalization ⟨37, 1⟩ [Component.normal 3]
    (.leaf .invalidArgument "x") rfl).2

/-- C1 (amended): converting a `PartialLookup<Handle>` into the
`(Handle, Option<PathBuf>)` result that `resolve_partial` surfaces keeps
the `Partial` shape only when the recorded first failure is
`OsError(Some(ENOENT))`; a `Partial` whose error is `ENOTDIR`, `EACCES`,
`EIO`, budget-exhaustion `SymlinkLoop` — or anything else that is not
exactly `ENOENT` — is returned as the fatal `last_error` instead. -/
theorem c1_only_enoent_surfaces (h : Handle) (rem : PathBuf) (e : Error) :
    (e.kind = .osError (some ENOENT) →
      PartialLookup.tryIntoHandleRemaining (.Partial h rem e) =
        .ok (h, some rem)) ∧
    (e.kind ≠ .osError (some ENOENT) →
      PartialLookup.tryIntoHandleRemaining (.Partial h rem e) = .error e) ∧
    (e.kind = .osError (some ENOTDIR) ∨ e.kind = .osError (some EACCES) ∨
        e.kind = .osError (some EIO) ∨ e.kind = .symlinkLoop →
      PartialLookup.tryIntoHandleRemaining (.Partial h rem e) = .error e) := by
  refine ⟨fun hk => ?_, fun hk => ?_, fun hk => ?_⟩
  · simp [PartialLookup.tryIntoHandleRemaining, hk]
  · simp [PartialLookup.tryIntoHandleRemaining, hk]
  · have hk' : e.kind ≠ .osError (some ENOENT) := by
      rcases hk with hk | hk | hk | hk <;> rw [hk] <;> simp [ENOENT, ENOTDIR, EACCES, EIO]
    simp [PartialLookup.tryIntoHandleRemaining, hk']

theorem c1_only_enoent_surfaces_witness :
    PartialLookup.tryIntoHandleRemaining
        (.Partial (Handle.fromFd 7) [Component.normal 3]
          (.leaf (.osError (some ENOENT)) "No such file or directory")) =
      .ok (Handle.fromFd 7, some [Component.normal 3]) :=
  (c1_only_enoent_surfaces (Handle.fromFd 7) [Component.normal 3]
    (.leaf (.osError (some ENOENT)) "No such file or directory")).1 rfl

/-- C1 counterexample to the claim as stated: a partial lookup whose
first failure is `ENOTDIR` is *not* surfaced as a `Partial` result — the
conversion returns the fatal error, not `(handle, Some(remaining))`. -/
theorem c1_enotdir_counterexample :
    PartialLookup.tryIntoHandleRemaining
        (.Partial (Handle.fromFd 7) [Component.normal 3]
          (.leaf (.osError (some ENOTDIR)) "Not a directory")) =
      .error (.leaf (.osError (some ENOTDIR)) "Not a directory") ∧
    PartialLookup.tryIntoHandleRemaining
        (.Partial (Handle.fromFd 7) [Component.normal 3]
          (.leaf (.osError (some ENOTDIR)) "Not a directory")) ≠
      .ok (Handle.fromFd 7, some [Component.normal 3]) := by
  constructor
  · rfl
  · intro hcontra
    simpa using hcontra.symm.trans
      (show PartialLookup.tryIntoHandleRemaining
          (.Partial (Handle.fromFd 7) [Component.normal 3]
            (.leaf (.osError (some ENOTDIR)) "Not a directory")) =
        .error (.leaf (.osError (some ENOTDIR)) "Not a directory") from rfl)

/-- C8. The `CError` description is the display message of the error itself
followed by the messages of each error in its causal source chain in
order, consecutive messages separated by the two-character string `": "`. -/
theorem c8_description_chain (e : Error) :
    cErrorDescription e =
      e.display ++ String.join (e.sourceMsgs.map (fun m => ": " ++ m)) :=
  descLoop_append e e.display

/-- C7 (amended): `saved_errno` is `0` whenever the error kind is not a
syscall-sourced `OsError(Some(errno))`, and for a syscall-sourced error it
equals the absolute value of the underlying errno for every representable
errno except `i32::MIN` (where the wrapping `abs` stays negative and the
`u64` conversion falls back to `0`). -/
theorem c7_saved_errno_abs (e : Error) :
    (∀ er : Int, e.kind = .osError (some er) → INT32_MIN < er →
      cErrorSavedErrno e = er.natAbs) ∧
    ((∀ er : Int, e.kind ≠ .osError (some er)) → cErrorSavedErrno e = 0) := by
  constructor
  · intro er hk hgt
    have hne : er ≠ INT32_MIN := ne_of_gt hgt
    simp only [cErrorSavedErrno, hk, i32WrappingAbs, if_neg hne, u64TryFromI32]
    rw [if_pos (abs_nonneg er)]
    simp only [Option.getD_some]
    rw [Int.abs_eq_natAbs]
    omega
  · intro hnot
    cases hk : e.kind with
    | osError errno =>
      cases errno with
      | none => simp [cErrorSavedErrno, hk, u64TryFromI32]
      | some er => exact absurd hk (hnot er)
    | invalidArgument => simp [cErrorSavedErrno, hk, u64TryFromI32]
    | safetyViolation => simp [cErrorSavedErrno, hk, u64TryFromI32]
    | symlinkLoop => simp [cErrorSavedErrno, hk, u64TryFromI32]
    | backendUnsupported => simp [cErrorSavedErrno, hk, u64TryFromI32]
    | notImplemented => simp [cErrorSavedErrno, hk, u64TryFromI32]

theorem c7_saved_errno_abs_witness :
    cErrorSavedErrno (.leaf (.osError (some (-13))) "Permission denied") =
      Int.natAbs (-13) :=
  (c7_saved_errno_abs (.leaf (.osError (some (-13))) "Permission denied")).1
    (-13) rfl (by norm_num [INT32_MIN])

/-- C7 counterexample to the claim as stated: for the (syscall-sourced)
errno `i32::MIN`, `saved_errno` is `0`, not the absolute value `2^31`. -/
theorem c7_intmin_counterexample :
    cErrorSavedErrno (.leaf (.osError (some INT32_MIN)) "io failure") = 0 ∧
    cErrorSavedErrno (.leaf (.osError (some INT32_MIN)) "io failure") ≠
      Int.natAbs INT32_MIN := by
  constructor
  · simp [cErrorSavedErrno, Error.kind, i32WrappingAbs, u64TryFromI32, INT32_MIN]
  · intro hcontra
    rw [show cErrorSavedErrno (.leaf (.osError (some INT32_MIN)) "io failure") = 0 by
      simp [cErrorSavedErrno, Error.kind, i32WrappingAbs, u64TryFromI32, INT32_MIN]] at hcontra
    norm_num [INT32_MIN] at hcontra

theorem ErrMap.find_eq_none_iff (m : ErrMap) (k : Int) :
    m.find k = none ↔ k ∉ m.keys := by
  induction m with
  | nil => simp [ErrMap.find, ErrMap.keys]
  | cons p rest ih =>
    by_cases hk : k = p.1
    · subst hk
      simp [ErrMap.find, ErrMap.keys, List.lookup]
    · have hbe : (k == p.1) = false := by simpa using hk
      simp only [ErrMap.find, List.lookup, hbe, ErrMap.keys, List.map_cons, List.mem_cons]
      constructor
      · intro hf hmem
        rcases hmem with hmem | hmem
        · exact hk hmem
        · exact ((ih.mp hf) hmem)
      · intro hmem
        exact ih.mpr fun hin => hmem (Or.inr hin)

theorem ErrMap.find_cons_self (k : Int) (e : Error) (m : ErrMap) :
    ErrMap.find ((k, e) :: m) k = some e := by
  simp [ErrMap.find, List.lookup]

theorem ErrMap.find_cons_ne (k k' : Int) (e : Error) (m : ErrMap)
    (h : k' ≠ k) : ErrMap.find ((k, e) :: m) k' = m.find k' := by
  have hbe : (k' == k) = false := by simpa using h
  simp only [ErrMap.find, List.lookup, hbe]

theorem ErrMap.find_remove_self (m : ErrMap) (k : Int) :
    (m.remove k).find k = none := by
  induction m with
  | nil => simp [ErrMap.remove, ErrMap.find]
  | cons p rest ih =>
    by_cases hk : p.1 = k
    · simpa [ErrMap.remove, List.filter, hk] using ih
    · simpa [ErrMap.remove, List.filter, hk, ErrMap.find_cons_ne p.1 k p.2 _ (Ne.symm hk)]
        using ih

theorem ErrMap.remove_wf (m : ErrMap) (k : Int) (h : m.Wf) :
    (m.remove k).Wf := by
  have hsub : (m.remove k).keys.Sublist m.keys :=
    List.Sublist.map Prod.fst (List.filter_sublist m)
  exact h.sublist hsub

/-- Unfolding of a successful `store_error`: the chosen id was one of the
drawn candidates, its slot was vacant, and the new map is the old map with
exactly that one binding added. -/
theorem storeError_eq (rands : List Int) (m : ErrMap) (e : Error)
    (idx : Int) (m' : ErrMap)
    (h : storeError rands m e = some (idx, m')) :
    idx ∈ rands ∧ m.find idx = none ∧ m' = (idx, e) :: m := by
  induction rands with
  | nil => simp [storeError] at h
  | cons r rest ih =>
    rw [storeError] at h
    cases hf : m.find r with
    | some _ =>
      rw [hf] at h
      have := ih h
      exact ⟨List.mem_cons_of_mem r this.1, this.2⟩
    | none =>
      rw [hf] at h
      simp only [Option.some.injEq, Prod.mk.injEq] at h
      obtain ⟨h1, h2⟩ := h
      subst h1; subst h2
      exact ⟨List.mem_cons_self r rest, hf, rfl⟩

theorem ErrMap.step_wf (m : ErrMap) (op : ErrOp) (h : m.Wf) :
    (m.step op).Wf := by
  cases op with
  | store rands e =>
    simp only [ErrMap.step]
    cases hs : storeError rands m e with
    | none => exact h
    | some p =>
      obtain ⟨idx, m'⟩ := p
      obtain ⟨-, hvac, hm'⟩ := storeError_eq rands m e idx m' hs
      subst hm'
      have hnotin : idx ∉ m.keys := (ErrMap.find_eq_none_iff m idx).mp hvac
      simp only [ErrMap.Wf, ErrMap.keys, List.map_cons, List.nodup_cons]
      exact ⟨hnotin, h⟩
  | query errId =>
    simpa [ErrMap.step, pathrsErrorinfo] using ErrMap.remove_wf m errId h

theorem ErrMap.run_wf (ops : List ErrOp) : (ErrMap.run ops).Wf := by
  suffices hgen : ∀ (l : List ErrOp) (m : ErrMap), m.Wf → (l.foldl ErrMap.step m).Wf by
    exact hgen ops [] (by simp [ErrMap.Wf, ErrMap.keys])
  intro l
  induction l with
  | nil => intro m hm; simpa using hm
  | cons op rest ih =>
    intro m hm
    exact ih (m.step op) (ErrMap.step_wf m op hm)

/-- C3. Every id returned by a successful `store_error` lies in
`[i32::MIN, -4096]` and never in `[-4095, -1]` (the candidate ids are drawn
by `gen_range(CReturn::MIN..=-4096)`, whose contract is the stated range),
so the id cannot collide with a value a caller would read as a `-errno`. -/
theorem c3_error_id_range (rands : List Int) (m : ErrMap) (e : Error)
    (idx : Int) (m' : ErrMap)
    (hrange : ∀ r ∈ rands, INT32_MIN ≤ r ∧ r ≤ -4096)
    (h : storeError rands m e = some (idx, m')) :
    (INT32_MIN ≤ idx ∧ idx ≤ -4096) ∧ ¬(-4095 ≤ idx ∧ idx ≤ -1) := by
  obtain ⟨hmem, -, -⟩ := storeError_eq rands m e idx m' h
  obtain ⟨h1, h2⟩ := hrange idx hmem
  exact ⟨⟨h1, h2⟩, by omega⟩

theorem c3_error_id_range_witness :
    (∀ r ∈ ([-5000] : List Int), INT32_MIN ≤ r ∧ r ≤ -4096) ∧
    ((INT32_MIN ≤ (-5000 : Int) ∧ (-5000 : Int) ≤ -4096) ∧
      ¬(-4095 ≤ (-5000 : Int) ∧ (-5000 : Int) ≤ -1)) := by
  have hrange : ∀ r ∈ ([-5000] : List Int), INT32_MIN ≤ r ∧ r ≤ -4096 := by
    intro r hr
    simp only [List.mem_singleton] at hr
    subst hr
    norm_num [INT32_MIN]
  exact ⟨hrange,
    c3_error_id_range [-5000] [] (.leaf .invalidArgument "x") (-5000)
      [((-5000 : Int), .leaf .invalidArgument "x")] hrange rfl⟩

/-- C4. `pathrs_errorinfo` consumes the queried id: if an error is
stored under it, the call returns the converted `CError` (carrying the
description) and removes the id from the table, so a second query with the
same id finds nothing. -/
theorem c4_errorinfo_consumes (m : ErrMap) (errId : Int) (e : Error)
    (h : m.find errId = some e) :
    (pathrsErrorinfo m errId).1 = some (cErrorFrom e) ∧
    ((pathrsErrorinfo m errId).2).find errId = none ∧
    (pathrsErrorinfo (pathrsErrorinfo m errId).2 errId).1 = none := by
  refine ⟨?_, ?_, ?_⟩
  · simp [pathrsErrorinfo, h]
  · simpa [pathrsErrorinfo] using ErrMap.find_remove_self m errId
  · simp [pathrsErrorinfo, ErrMap.find_remove_self m errId]

theorem c4_errorinfo_consumes_witness :
    (pathrsErrorinfo [((-5000 : Int), Error.leaf .invalidArgument "x")] (-5000)).1 =
      some (cErrorFrom (.leaf .invalidArgument "x")) ∧
    ((pathrsErrorinfo [((-5000 : Int), Error.leaf .invalidArgument "x")] (-5000)).2).find
      (-5000) = none ∧
    (pathrsErrorinfo
      (pathrsErrorinfo [((-5000 : Int), Error.leaf .invalidArgument "x")] (-5000)).2
      (-5000)).1 = none :=
  c4_errorinfo_consumes [((-5000 : Int), .leaf .invalidArgument "x")] (-5000)
    (.leaf .invalidArgument "x") rfl

/-- C10. `store_error` only ever inserts into a vacant slot: in any
table state reachable by a sequence of `store_error`/`pathrs_errorinfo`
calls the outstanding ids are pairwise distinct (`Wf`), and a successful
store picks an id that was unbound, binds exactly the stored error to it,
and leaves the binding of every other id untouched. -/
theorem c10_store_fresh_slot (ops : List ErrOp) (rands : List Int)
    (e : Error) (idx : Int) (m' : ErrMap)
    (h : storeError rands (ErrMap.run ops) e = some (idx, m')) :
    (ErrMap.run ops).Wf ∧ m'.Wf ∧
    (ErrMap.run ops).find idx = none ∧
    m'.find idx = some e ∧
    ∀ k : Int, k ≠ idx → m'.find k = (ErrMap.run ops).find k := by
  obtain ⟨-, hvac, hm'⟩ := storeError_eq rands (ErrMap.run ops) e idx m' h
  have hwf := ErrMap.run_wf ops
  subst hm'
  refine ⟨hwf, ?_, hvac, ErrMap.find_cons_self idx e _, ?_⟩
  · have hnotin : idx ∉ (ErrMap.run ops).keys :=
      (ErrMap.find_eq_none_iff (ErrMap.run ops) idx).mp hvac
    simp only [ErrMap.Wf, ErrMap.keys, List.map_cons, List.nodup_cons]
    exact ⟨hnotin, hwf⟩
  · intro k hk
    exact ErrMap.find_cons_ne idx k e _ hk

theorem c10_store_fresh_slot_witness :
    ErrMap.Wf (ErrMap.run []) ∧
    ErrMap.Wf [((-5000 : Int), Error.leaf .invalidArgument "x")] ∧
    ErrMap.find (ErrMap.run []) (-5000) = none ∧
    ErrMap.find [((-5000 : Int), Error.leaf .invalidArgument "x")] (-5000) =
      some (.leaf .invalidArgument "x") ∧
    ∀ k : Int, k ≠ -5000 →
      ErrMap.find [((-5000 : Int), Error.leaf .invalidArgument "x")] k =
        ErrMap.find (ErrMap.run []) k :=
  c10_store_fresh_slot [] [-5000] (.leaf .invalidArgument "x") (-5000)
    [((-5000 : Int), .leaf .invalidArgument "x")] rfl

theorem chain_node_root (n : Nat) :
    (chainFs n).node 0 =
      some (.dir fun name => if 1 ≤ name ∧ name ≤ n + 1 then some name else none) := rfl

theorem chain_node_link (n i : Nat) (h1 : 1 ≤ i) (h2 : i ≤ n) :
    (chainFs n).node i = some (.symlink false [.normal (i + 1)]) := by
  show (if i = 0 then _ else if 1 ≤ i ∧ i ≤ n then
      some (Node.symlink false [.normal (i + 1)]) else _) = _
  rw [if_neg (by omega), if_pos ⟨h1, h2⟩]

theorem chain_node_file (n : Nat) :
    (chainFs n).node (n + 1) = some .file := by
  simp only [chainFs]
  rw [if_neg (by omega), if_neg (by omega)]
  simp

/-- Walking the symlink chain from entry `i` of `chainFs n` succeeds (at the
file, inode `n + 1`) whenever the remaining chain length `n + 1 - i` fits in
the remaining symlink budget. -/
theorem chain_walk_ok (n : Nat) : ∀ (budget i : Nat),
    1 ≤ i → i ≤ n + 1 → n + 1 - i ≤ budget →
    opathWalk (chainFs n) ⟨false⟩ false budget 0 [Component.normal i] =
      .ok (n + 1) := by
  intro budget
  induction budget with
  | zero =>
    intro i h1 h2 h3
    have hi : i = n + 1 := by omega
    subst hi
    rw [opathWalk]
    simp only [chain_node_root n]
    rw [if_pos ⟨h1, le_refl (n + 1)⟩]
    simp only [chain_node_file n]
    rw [opathWalk]
  | succ b ih =>
    intro i h1 h2 h3
    by_cases hi : i = n + 1
    · subst hi
      rw [opathWalk]
      simp only [chain_node_root n]
      rw [if_pos ⟨h1, le_refl (n + 1)⟩]
      simp only [chain_node_file n]
      rw [opathWalk]
    · have h2' : i ≤ n := by omega
      rw [opathWalk]
      simp only [chain_node_root n]
      rw [if_pos ⟨h1, h2⟩]
      simp only [chain_node_link n i h1 h2']
      simp only [false_and, if_false, Bool.false_eq_true, Nat.succ_ne_zero]
      simpa using ih (i + 1) (by omega) (by omega) (by omega)

/-- Walking the symlink chain from entry `i` of `chainFs n` exhausts the
budget (`SymlinkLoop`) whenever the remaining chain length `n + 1 - i`
exceeds the remaining budget. -/
theorem chain_walk_loop (n : Nat) : ∀ (budget i : Nat),
    1 ≤ i → i ≤ n → budget < n + 1 - i →
    opathWalk (chainFs n) ⟨false⟩ false budget 0 [Component.normal i] =
      .error .symlinkLoop := by
  intro budget
  induction budget with
  | zero =>
    intro i h1 h2 h3
    rw [opathWalk]
    simp only [chain_node_root n]
    rw [if_pos ⟨h1, by omega⟩]
    simp only [chain_node_link n i h1 h2]
    simp only [false_and, if_false, Bool.false_eq_true]
    simp
  | succ b ih =>
    intro i h1 h2 h3
    rw [opathWalk]
    simp only [chain_node_root n]
    rw [if_pos ⟨h1, by omega⟩]
    simp only [chain_node_link n i h1 h2]
    simp only [false_and, if_false, Bool.false_eq_true, Nat.succ_ne_zero]
    simpa using ih (i + 1) (by omega) (by omega) (by omega)

/-- C5. The symlink-traversal budget is `MAX_SYMLINK_TRAVERSALS = 128`,
initialized per resolution and decremented on each symlink expansion: on a
filesystem whose resolution needs exactly `n` symlink hops, the emulated
resolve succeeds for every `n ≤ 128` (in particular exactly 128 hops) and
fails with `SymlinkLoop` (ELOOP) for every `n > 128` (in particular 129). -/
theorem c5_symlink_budget : MAX_SYMLINK_TRAVERSALS = 128 ∧ ∀ n : Nat,
    opathResolve (chainFs n) ⟨false⟩ [Component.normal 1] false =
      if n ≤ MAX_SYMLINK_TRAVERSALS then .ok (n + 1) else .error .symlinkLoop := by
  refine ⟨rfl, fun n => ?_⟩
  by_cases hn : n ≤ 128
  · rw [if_pos (show n ≤ MAX_SYMLINK_TRAVERSALS from hn)]
    exact chain_walk_ok n 128 1 (by omega) (by omega) (by omega)
  · rw [if_neg (show ¬n ≤ MAX_SYMLINK_TRAVERSALS from hn)]
    exact chain_walk_loop n 128 1 (by omega) (by omega) (by omega)

end LibResolvePath
